import Mathlib

/-!
Shallow embedding of the synthetic e-commerce data generator
(`populate_data.py` of bengo_data_platform), centred on the new
items-first order lifecycle engine `populate_orders_and_items_new_lifecycle`
and its helpers `generate_random_timestamp`, `standalone_calculate_date_range`
and `populate_customers`.

Modelling conventions:
- Timestamps are integers (seconds since an arbitrary epoch); a Python
  `timedelta(days = d, hours = h, minutes = m, seconds = s)` becomes
  `d*86400 + h*3600 + m*60 + s`.  `timedelta.days` floors towards minus
  infinity, which is `Int.fdiv _ 86400`.
- Money is in integer cents.  The source rounds each unit price to two
  decimals before accumulating, so line totals and order totals are exact
  in cents; the 10%-chance markdown draws a real discount in [0.1, 0.3]
  and rounds, which we model as the resulting rounded unit price: a
  choice bounded by the catalog price.
- Every call to the process-wide random generator is replaced by an
  explicit choice value carried in a choice structure; a `Valid`
  predicate records the range the corresponding `random.randint` /
  `random.uniform` / `random.sample` draw is confined to.
- The logical order identifier `f"{ts:%Y%m%d-%H%M%S}-{seq:06d}"` is the
  pair (timestamp truncated to the second, per-second sequence number);
  the string formatting is injective on that data, so identifier
  equality coincides with pair equality.
- `random.randint(0, n)` with `n < 0` raises `ValueError`; fallible
  paths return `Except RunError` / `Option`.
-/

namespace BengoData

/-- Lifecycle status of a physical order record
(`status` column of `data.source_orders`). -/
inductive Status where
  | pending
  | completed
  | cancelled
  | refunded
deriving DecidableEq, Repr

/-- A row of `data.source_products`: serial id, creation timestamp,
price in cents. -/
structure Product where
  pid : Nat
  created_at : Int
  price : Nat
deriving DecidableEq, Repr, Inhabited

/-- Python `timedelta.days` of `e - s`: floor division by 86400 seconds,
as computed by `generate_random_timestamp` (line 69 of populate_data.py). -/
def daysBetween (s e : Int) : Int :=
  Int.fdiv (e - s) 86400

/-- The component draws of `generate_random_timestamp`
(populate_data.py lines 66-79): `random_days = randint(0, days_between)`,
`random_hours = randint(0, 23)`, `random_minutes = randint(0, 59)`,
`random_seconds = randint(0, 59)`. -/
structure TSChoice where
  days : Nat
  hours : Nat
  minutes : Nat
  seconds : Nat
deriving DecidableEq, Repr

/-- The ranges the four `randint` calls of `generate_random_timestamp`
confine their draws to, given `db = days_between`. -/
def TSChoice.Valid (db : Int) (t : TSChoice) : Prop :=
  (t.days : Int) ≤ db ∧ t.hours ≤ 23 ∧ t.minutes ≤ 59 ∧ t.seconds ≤ 59

instance (db : Int) (t : TSChoice) : Decidable (t.Valid db) := by
  unfold TSChoice.Valid; infer_instance

/-- The timestamp assembled by `generate_random_timestamp`:
`start_date + timedelta(days, hours, minutes, seconds)`. -/
def tsOf (start_date : Int) (t : TSChoice) : Int :=
  start_date + (t.days : Int) * 86400 + (t.hours : Int) * 3600
    + (t.minutes : Int) * 60 + (t.seconds : Int)

/-- `generate_random_timestamp` (populate_data.py lines 66-79).
`random.randint(0, days_between)` raises `ValueError` when
`days_between < 0`, modelled as `none`. -/
def generate_random_timestamp (start_date end_date : Int) (t : TSChoice) : Option Int :=
  if daysBetween start_date end_date < 0 then none
  else some (tsOf start_date t)

/-- `random_timestamp` (populate_data.py lines 59-63), the seconds-based
sampler used by the customer and product generators:
`start + timedelta(seconds = randint(0, int((end-start).total_seconds())))`.
The draw `secs` is confined to `[0, e - s]`; `randint` raises
`ValueError` when the window is negative, modelled as `none`. -/
def random_timestamp (start_dt end_dt : Int) (secs : Nat) : Option Int :=
  if end_dt - start_dt < 0 then none
  else some (start_dt + (secs : Int))

/-- `standalone_calculate_date_range` (populate_data.py lines 82-101):
with an explicit start date the pair is `(start, start + days)`;
otherwise the start is the table's `MAX(created_at)`, or `datetime.now()`
when the table is empty, and the end is `start + days`.  No offset is
added to the table maximum and no clamping to `now` happens. -/
def standalone_calculate_date_range (tableMax : Option Int) (now : Int)
    (days_from_max : Nat) (start_date : Option Int) : Int × Int :=
  match start_date with
  | some sd => (sd, sd + (days_from_max : Int) * 86400)
  | none =>
      let maxDate := tableMax.getD now
      (maxDate, maxDate + (days_from_max : Int) * 86400)

/-- Epoch value of the fixed default anchor `2025-06-01` used by the
method variant `calculate_date_range`; its absolute value is irrelevant
to every property proved here. -/
def defaultAnchor : Int := 1748736000

/-- The method variant `calculate_date_range` (populate_data.py lines
672-707, dead code never called by the new-lifecycle run): start is the
explicit date or `max + 1 minute` or the fixed `2025-06-01` anchor; end
is `start + days` clamped to `now`, with a minimal 1-hour window
substituted when clamping makes the range empty. -/
def calculate_date_range (tableMax : Option Int) (now : Int)
    (days_from_max : Nat) (start_date : Option Int) : Int × Int :=
  let start0 : Int :=
    match tableMax with
    | none => start_date.getD defaultAnchor
    | some m => m + 60
  let end0 := start0 + (days_from_max : Int) * 86400
  let end1 := if end0 > now then now else end0
  if end1 ≤ start0 then
    let end2 := start0 + 3600
    if end2 > now then (now - 3600, now) else (start0, end2)
  else (start0, end1)

/-- An order item held in memory during the run (`order['items']`
entries, populate_data.py lines 1423-1428), together with the catalog
row it references. -/
structure GenItem where
  product : Product
  quantity : Nat
  unit_price : Nat
  created_at : Int
deriving DecidableEq, Repr

/-- A physical row of `data.source_orders`: logical id, customer,
original order date, status, total amount, creation timestamp. -/
structure OrderRecord where
  oid : Int × Nat
  customer_id : Nat
  order_date : Int
  status : Status
  total_amount : Nat
  created_at : Int
deriving DecidableEq, Repr

/-- A logical order as produced by the engine: the in-memory dict of
stage 1 plus its generated items and emitted physical records. -/
structure GenOrder where
  oid : Int × Nat
  customer_id : Nat
  order_date : Int
  items : List GenItem
  total_amount : Nat
  hasItems : Bool
  completed : Bool
  refunded : Bool
  records : List OrderRecord
deriving DecidableEq, Repr

/-- The random draws consumed for one item slot (populate_data.py lines
1387-1430): the eligible-catalog index effectively selected by the
duplicate-avoidance retry loop, `quantity = randint(1, 3)`, the unit
price after the optional markdown, and the creation offset
`timedelta(minutes = randint(1, 60), seconds = randint(0, 59))`. -/
structure ItemChoice where
  prodIdx : Nat
  quantity : Nat
  unitPrice : Nat
  minOff : Nat
  secOff : Nat
deriving DecidableEq, Repr

/-- Products whose creation timestamp is `≤` the order date
(`eligible_products`, populate_data.py lines 1374-1377). -/
def eligibleProducts (catalog : List Product) (orderDate : Int) : List Product :=
  catalog.filter (fun p => p.created_at ≤ orderDate)

/-- Ranges of the draws of one item slot: the retry loop picks from the
eligible list, quantity is in [1,3], the (possibly marked-down) unit
price never exceeds the catalog price, and the offset fields follow
`randint(1, 60)` minutes and `randint(0, 59)` seconds. -/
def ItemChoice.Valid (elig : List Product) (i : ItemChoice) : Prop :=
  i.prodIdx < elig.length ∧ 1 ≤ i.quantity ∧ i.quantity ≤ 3 ∧
  i.unitPrice ≤ (elig.getD i.prodIdx default).price ∧
  1 ≤ i.minOff ∧ i.minOff ≤ 60 ∧ i.secOff ≤ 59

instance (elig : List Product) (i : ItemChoice) : Decidable (i.Valid elig) := by
  unfold ItemChoice.Valid; infer_instance

/-- Materialize one item slot (populate_data.py lines 1387-1430):
item creation time is the order date plus the minutes/seconds offset,
with no clamping into the window. -/
def genItem (elig : List Product) (orderDate : Int) (i : ItemChoice) : GenItem :=
  let p := elig.getD i.prodIdx default
  { product := p
    quantity := i.quantity
    unit_price := i.unitPrice
    created_at := orderDate + (i.minOff : Int) * 60 + (i.secOff : Int) }

/-- `line_total = quantity * unit_price` summed over the items
(populate_data.py lines 1414-1415, 1433), exact in cents. -/
def sumLineTotals (items : List GenItem) : Nat :=
  (items.map (fun i => i.quantity * i.unit_price)).sum

/-- All random draws consumed for one logical order across the stages:
the customer pick, the order-date draw, membership in the stage-2 item
sample, the item count and slots, membership in the stage-3 completion
sample and the stage-4 refund sample, and the status-record delay and
clamp draws (`randint(1,4)` days, `randint(1,12)` clamp hours,
`randint(1,2)` refund days). -/
structure OrderChoice where
  custIdx : Nat
  ts : TSChoice
  itemSel : Bool
  numItems : Nat
  items : List ItemChoice
  completedSel : Bool
  refundSel : Bool
  termDays : Nat
  termClampH : Nat
  refDays : Nat
  refClampH : Nat
deriving DecidableEq, Repr

/-- Ranges of the per-order draws, given the adjusted window `[s, e]`,
`max_items_per_order`, the customer pool size and the catalog. -/
def OrderChoice.Valid (s e : Int) (maxItems nCust : Nat)
    (catalog : List Product) (c : OrderChoice) : Prop :=
  c.custIdx < nCust ∧ c.ts.Valid (daysBetween s e) ∧
  1 ≤ c.numItems ∧ c.numItems ≤ maxItems ∧ c.items.length = c.numItems ∧
  (∀ i ∈ c.items, i.Valid (eligibleProducts catalog (tsOf s c.ts))) ∧
  1 ≤ c.termDays ∧ c.termDays ≤ 4 ∧ 1 ≤ c.termClampH ∧ c.termClampH ≤ 12 ∧
  1 ≤ c.refDays ∧ c.refDays ≤ 2 ∧ 1 ≤ c.refClampH ∧ c.refClampH ≤ 12

instance (s e : Int) (maxItems nCust : Nat) (catalog : List Product)
    (c : OrderChoice) : Decidable (c.Valid s e maxItems nCust catalog) := by
  unfold OrderChoice.Valid; infer_instance

/-- Emit the physical status records of one logical order
(populate_data.py lines 1461-1500): always a pending record at the order
date; then a completed record at `order_date + randint(1,4)` days, with
a refunded record at `completed_at + randint(1,2)` days when selected,
or else a cancelled record at `order_date + randint(1,4)` days.  Any
stage timestamp past `end_datetime` is replaced by
`end_datetime - randint(1,12)` hours. -/
def mkRecords (endDt : Int) (oid : Int × Nat) (cid : Nat) (od : Int)
    (total : Nat) (comp ref : Bool) (c : OrderChoice) : List OrderRecord :=
  let pend : OrderRecord := ⟨oid, cid, od, Status.pending, total, od⟩
  if comp then
    let ca0 := od + (c.termDays : Int) * 86400
    let ca := if ca0 > endDt then endDt - (c.termClampH : Int) * 3600 else ca0
    let compRec : OrderRecord := ⟨oid, cid, od, Status.completed, total, ca⟩
    if ref then
      let ra0 := ca + (c.refDays : Int) * 86400
      let ra := if ra0 > endDt then endDt - (c.refClampH : Int) * 3600 else ra0
      [pend, compRec, ⟨oid, cid, od, Status.refunded, total, ra⟩]
    else [pend, compRec]
  else
    let ka0 := od + (c.termDays : Int) * 86400
    let ka := if ka0 > endDt then endDt - (c.termClampH : Int) * 3600 else ka0
    [pend, ⟨oid, cid, od, Status.cancelled, total, ka⟩]

/-- Process one logical order through all stages of
`populate_orders_and_items_new_lifecycle` (populate_data.py lines
1340-1500), threading the per-second id counter (`order_counters`):
draw the order date, assign id `(order_date, counter+1)`, generate the
items when the order is in the stage-2 sample and an eligible product
exists, accumulate the total, resolve the status flags (completion only
with items; refund only for completed) and emit the records. -/
def processOrder (s endDt : Int) (catalog : List Product)
    (customers : List Nat) (counter : Int → Nat) (c : OrderChoice) :
    GenOrder × (Int → Nat) :=
  let od := tsOf s c.ts
  let seq := counter od + 1
  let counter' : Int → Nat := fun k => if k = od then seq else counter k
  let cid := customers.getD c.custIdx 0
  let elig := eligibleProducts catalog od
  let hasIt := c.itemSel && !elig.isEmpty
  let items := if hasIt then c.items.map (genItem elig od) else []
  let total := sumLineTotals items
  let comp := hasIt && c.completedSel
  let ref := comp && c.refundSel
  ({ oid := (od, seq)
     customer_id := cid
     order_date := od
     items := items
     total_amount := total
     hasItems := hasIt
     completed := comp
     refunded := ref
     records := mkRecords endDt (od, seq) cid od total comp ref c }, counter')

/-- Process a list of orders in sequence, threading the id counter. -/
def processOrders (s endDt : Int) (catalog : List Product)
    (customers : List Nat) : (Int → Nat) → List OrderChoice → List GenOrder
  | _, [] => []
  | counter, c :: cs =>
      let (o, counter') := processOrder s endDt catalog customers counter c
      o :: processOrders s endDt catalog customers counter' cs

/-- Inputs of one engine run: the existing customer-id pool, the product
catalog, the orders table's current `MAX(created_at)`, the wall clock,
the window length, `max_items_per_order` and the optional explicit
start date. -/
structure EngineInput where
  customers : List Nat
  catalog : List Product
  tableMax : Option Int
  now : Int
  days : Nat
  maxItems : Nat
  startDate : Option Int
deriving Repr

/-- The window `standalone_calculate_date_range` computes for the
orders table in the new-lifecycle run (populate_data.py line 1327). -/
def windowOf (inp : EngineInput) : Int × Int :=
  standalone_calculate_date_range inp.tableMax inp.now inp.days inp.startDate

/-- `min(p['created_at'] for p in product_data.values())`
(populate_data.py line 1330); the engine only evaluates it on a
nonempty catalog. -/
def minCreated : List Product → Int
  | [] => 0
  | p :: ps => ps.foldl (fun m q => min m q.created_at) p.created_at

/-- The window-start adjustment of populate_data.py lines 1329-1333:
when the earliest product postdates the window start, the start is
pushed to `min_product_time + 1 minute`, with no re-validation against
the window end. -/
def adjustedStart (inp : EngineInput) : Int :=
  let s0 := (windowOf inp).1
  let m := minCreated inp.catalog
  if m > s0 then m + 60 else s0

/-- How a run of `populate_orders_and_items_new_lifecycle` can fail:
the reported precondition aborts (no customers / no products,
populate_data.py lines 1310-1322) and the unhandled `ValueError` from
`random.randint(0, days_between)` with a negative bound. -/
inductive RunError where
  | noCustomers
  | noProducts
  | valueError
deriving DecidableEq, Repr

instance {ε α : Type} [DecidableEq ε] [DecidableEq α] :
    DecidableEq (Except ε α) := fun x y =>
  match x, y with
  | .error a, .error b =>
      if h : a = b then .isTrue (by rw [h]) else .isFalse (by simp [h])
  | .ok a, .ok b =>
      if h : a = b then .isTrue (by rw [h]) else .isFalse (by simp [h])
  | .error _, .ok _ => .isFalse (by simp)
  | .ok _, .error _ => .isFalse (by simp)

/-- One run of `populate_orders_and_items_new_lifecycle`
(populate_data.py lines 1282-1533) on explicit random choices: abort
when there are no customers or no products; compute the window and the
product-based start adjustment; the first stage-1 order-date draw
raises `ValueError` when the adjusted window is negative
(`days_between < 0`); otherwise every draw succeeds and the run returns
the window actually used and the processed orders. -/
def runEngine (inp : EngineInput) (cs : List OrderChoice) :
    Except RunError (Int × Int × List GenOrder) :=
  if inp.customers = [] then .error .noCustomers
  else if inp.catalog = [] then .error .noProducts
  else
    let s := adjustedStart inp
    let e := (windowOf inp).2
    match cs with
    | [] => .ok (s, e, [])
    | c :: _ =>
        if generate_random_timestamp s e c.ts = none then .error .valueError
        else .ok (s, e, processOrders s e inp.catalog inp.customers (fun _ => 0) cs)

/-- Number of orders the run marked completed. -/
def countCompleted (os : List GenOrder) : Nat :=
  (os.filter (fun o => o.completed)).length

/-- Number of orders that received items. -/
def countWithItems (os : List GenOrder) : Nat :=
  (os.filter (fun o => o.hasItems)).length

/-- Number of records of a given status among a record list. -/
def countStatus (rs : List OrderRecord) (st : Status) : Nat :=
  rs.countP (fun r => r.status = st)

/-! ### Email generation of the standalone `populate_customers` -/

/-- The bounded retry loop of `populate_customers` (populate_data.py
lines 266-271): `while email in existing_emails and tries < 50:
email = fake.email(); tries += 1`.  Emails are naturals; the faker's
successive draws are the stream `stream`, indexed by draw number; `fuel`
is `50 - tries`.  When the budget is exhausted the (possibly still
colliding) email is returned — there is no synthesized fallback. -/
def emailLoop (existing : List Nat) (stream : Nat → Nat) :
    Nat → Nat → Nat → Nat
  | 0, _, email => email
  | fuel + 1, tries, email =>
      if email ∈ existing then
        emailLoop existing stream fuel (tries + 1) (stream (tries + 1))
      else email

/-- One customer's email: initial draw `stream 0`, then the retry loop
with budget 50. -/
def pickEmail (existing : List Nat) (stream : Nat → Nat) : Nat :=
  emailLoop existing stream 50 0 (stream 0)

/-- The emails emitted by one `populate_customers` batch
(populate_data.py lines 263-277): each accepted email is added to
`existing_emails` before the next customer is processed. -/
def populate_customers_emails (existing : List Nat) :
    List (Nat → Nat) → List Nat
  | [] => []
  | st :: rest =>
      pickEmail existing st ::
        populate_customers_emails (pickEmail existing st :: existing) rest

/-- Whether, for every customer in turn, some faker draw within the
51-draw budget (the initial draw plus 50 retries) avoids the
existing-plus-batch email set as it stands when that customer is
processed. -/
def emailStreamsOk (existing : List Nat) : List (Nat → Nat) → Bool
  | [] => true
  | st :: rest =>
      ((List.range 51).any (fun t => decide (st t ∉ existing))) &&
        emailStreamsOk (pickEmail existing st :: existing) rest

/-! ### Concrete runs used by counterexamples and witnesses -/

/-- A two-order, two-product run with an explicit start date `0` and a
two-day window: order 1 gets one item, is completed and refunded;
order 2 is not selected for items and is cancelled. -/
def wInp : EngineInput :=
  { customers := [1, 2], catalog := [⟨1, 0, 100⟩, ⟨2, 50, 200⟩],
    tableMax := none, now := 0, days := 2, maxItems := 2,
    startDate := some 0 }

/-- Choices of the first order of the `wInp` run. -/
def wC1 : OrderChoice :=
  { custIdx := 0, ts := ⟨0, 1, 0, 0⟩, itemSel := true, numItems := 1,
    items := [⟨0, 2, 100, 5, 0⟩], completedSel := true, refundSel := true,
    termDays := 1, termClampH := 1, refDays := 1, refClampH := 1 }

/-- Choices of the second order of the `wInp` run. -/
def wC2 : OrderChoice :=
  { custIdx := 1, ts := ⟨0, 2, 0, 0⟩, itemSel := false, numItems := 1,
    items := [⟨0, 1, 100, 1, 0⟩], completedSel := false, refundSel := false,
    termDays := 2, termClampH := 1, refDays := 1, refClampH := 1 }

/-- The choice list of the `wInp` run. -/
def wCs : List OrderChoice := [wC1, wC2]

/-- The output of the `wInp` run. -/
def wOut : Int × Int × List GenOrder :=
  (runEngine wInp wCs).toOption.getD (0, 0, [])

/-- One-product single-order input with window `[0, 86400]` whose order
date falls exactly on the window end. -/
def cex3Inp : EngineInput :=
  { customers := [1], catalog := [⟨1, 0, 100⟩], tableMax := none,
    now := 0, days := 1, maxItems := 1, startDate := some 0 }

/-- A legal draw for `cex3Inp` placing the order at the window end so
that the cancelled record is clamped to 12 hours before the end,
i.e. before the pending record. -/
def cex3C : OrderChoice :=
  { custIdx := 0, ts := ⟨1, 0, 0, 0⟩, itemSel := false, numItems := 1,
    items := [⟨0, 1, 100, 1, 0⟩], completedSel := false, refundSel := false,
    termDays := 1, termClampH := 12, refDays := 1, refClampH := 1 }

/-- Same window as `cex3Inp`, used for the unclamped-item overshoot. -/
def cex6Inp : EngineInput :=
  { customers := [1], catalog := [⟨1, 0, 100⟩], tableMax := none,
    now := 0, days := 1, maxItems := 1, startDate := some 0 }

/-- A legal draw for `cex6Inp`: the order sits on the window end and its
single item is created one minute later, past the window end. -/
def cex6C : OrderChoice :=
  { custIdx := 0, ts := ⟨1, 0, 0, 0⟩, itemSel := true, numItems := 1,
    items := [⟨0, 1, 100, 1, 0⟩], completedSel := false, refundSel := false,
    termDays := 1, termClampH := 1, refDays := 1, refClampH := 1 }

/-- `MAX(created_at)` over the order rows emitted by a run (the
counterexample store is nonempty, so the fold seed is never the
maximum). -/
def maxCreatedOf (os : List GenOrder) : Int :=
  ((os.map (fun o => o.records.map (fun r => r.created_at))).flatten).foldl max 0

/-- First run of the cross-run collision scenario: empty store, explicit
start `0`, one-day window. -/
def c8aInp : EngineInput :=
  { customers := [1], catalog := [⟨1, 0, 100⟩], tableMax := none,
    now := 0, days := 1, maxItems := 1, startDate := some 0 }

/-- Single order of the first run, dated exactly at the window end
`86400`, giving logical id `(86400, 1)`. -/
def c8aC : OrderChoice :=
  { custIdx := 0, ts := ⟨1, 0, 0, 0⟩, itemSel := false, numItems := 1,
    items := [⟨0, 1, 100, 1, 0⟩], completedSel := false, refundSel := false,
    termDays := 1, termClampH := 12, refDays := 1, refClampH := 1 }

/-- Output of the first collision-scenario run. -/
def c8aOut : Int × Int × List GenOrder :=
  (runEngine c8aInp [c8aC]).toOption.getD (0, 0, [])

/-- Second run of the collision scenario: no explicit start date, the
orders table's maximum timestamp is the first run's maximum `86400`. -/
def c8bInp : EngineInput :=
  { customers := [1], catalog := [⟨1, 0, 100⟩], tableMax := some 86400,
    now := 0, days := 1, maxItems := 1, startDate := none }

/-- Single order of the second run, drawn with all-zero offsets, landing
exactly on the window start `86400` and reusing logical id
`(86400, 1)`. -/
def c8bC : OrderChoice :=
  { custIdx := 0, ts := ⟨0, 0, 0, 0⟩, itemSel := false, numItems := 1,
    items := [⟨0, 1, 100, 1, 0⟩], completedSel := false, refundSel := false,
    termDays := 1, termClampH := 1, refDays := 1, refClampH := 1 }

/-- Output of the second collision-scenario run. -/
def c8bOut : Int × Int × List GenOrder :=
  (runEngine c8bInp [c8bC]).toOption.getD (0, 0, [])

/-- Input whose single product postdates the whole orders window: the
window is `[0, 0]` and the product appears at `200000`. -/
def c10Inp : EngineInput :=
  { customers := [1], catalog := [⟨1, 200000, 100⟩], tableMax := none,
    now := 0, days := 0, maxItems := 1, startDate := some 0 }

/-- An arbitrary order choice for the crashing run. -/
def c10C : OrderChoice :=
  { custIdx := 0, ts := ⟨0, 0, 0, 0⟩, itemSel := false, numItems := 1,
    items := [], completedSel := false, refundSel := false,
    termDays := 1, termClampH := 1, refDays := 1, refClampH := 1 }

/-! ### Structural lemmas about the engine -/

theorem processOrder_records_eq (s e : Int) (catalog : List Product)
    (customers : List Nat) (k : Int → Nat) (c : OrderChoice) :
    ((processOrder s e catalog customers k c).1).records =
      mkRecords e ((processOrder s e catalog customers k c).1).oid
        ((processOrder s e catalog customers k c).1).customer_id
        ((processOrder s e catalog customers k c).1).order_date
        ((processOrder s e catalog customers k c).1).total_amount
        ((processOrder s e catalog customers k c).1).completed
        ((processOrder s e catalog customers k c).1).refunded c := rfl

theorem processOrder_total_eq (s e : Int) (catalog : List Product)
    (customers : List Nat) (k : Int → Nat) (c : OrderChoice) :
    ((processOrder s e catalog customers k c).1).total_amount =
      sumLineTotals ((processOrder s e catalog customers k c).1).items := rfl

theorem processOrder_order_date_eq (s e : Int) (catalog : List Product)
    (customers : List Nat) (k : Int → Nat) (c : OrderChoice) :
    ((processOrder s e catalog customers k c).1).order_date = tsOf s c.ts := rfl

theorem processOrder_oid_eq (s e : Int) (catalog : List Product)
    (customers : List Nat) (k : Int → Nat) (c : OrderChoice) :
    ((processOrder s e catalog customers k c).1).oid =
      (tsOf s c.ts, k (tsOf s c.ts) + 1) := rfl

theorem processOrder_hasItems_eq (s e : Int) (catalog : List Product)
    (customers : List Nat) (k : Int → Nat) (c : OrderChoice) :
    ((processOrder s e catalog customers k c).1).hasItems =
      (c.itemSel && !(eligibleProducts catalog (tsOf s c.ts)).isEmpty) := rfl

theorem processOrder_items_eq (s e : Int) (catalog : List Product)
    (customers : List Nat) (k : Int → Nat) (c : OrderChoice) :
    ((processOrder s e catalog customers k c).1).items =
      (if (processOrder s e catalog customers k c).1.hasItems
        then c.items.map (genItem (eligibleProducts catalog (tsOf s c.ts)) (tsOf s c.ts))
        else []) := rfl

theorem processOrder_completed_eq (s e : Int) (catalog : List Product)
    (customers : List Nat) (k : Int → Nat) (c : OrderChoice) :
    ((processOrder s e catalog customers k c).1).completed =
      ((processOrder s e catalog customers k c).1.hasItems && c.completedSel) := rfl

theorem processOrder_refunded_eq (s e : Int) (catalog : List Product)
    (customers : List Nat) (k : Int → Nat) (c : OrderChoice) :
    ((processOrder s e catalog customers k c).1).refunded =
      ((processOrder s e catalog customers k c).1.completed && c.refundSel) := rfl

theorem processOrder_counter_eq (s e : Int) (catalog : List Product)
    (customers : List Nat) (k : Int → Nat) (c : OrderChoice) :
    (processOrder s e catalog customers k c).2 =
      fun x => if x = tsOf s c.ts then k (tsOf s c.ts) + 1 else k x := rfl

theorem mem_processOrders {s e : Int} {catalog : List Product}
    {customers : List Nat} :
    ∀ {cs : List OrderChoice} {k : Int → Nat} {o : GenOrder},
      o ∈ processOrders s e catalog customers k cs →
      ∃ c ∈ cs, ∃ k', o = (processOrder s e catalog customers k' c).1 := by
  intro cs
  induction cs with
  | nil => intro k o h; simp [processOrders] at h
  | cons c rest ih =>
      intro k o h
      simp only [processOrders, List.mem_cons] at h
      rcases h with h1 | h2
      · exact ⟨c, List.mem_cons_self c rest, k, h1⟩
      · obtain ⟨c', hc', k', hk'⟩ := ih h2
        exact ⟨c', List.mem_cons_of_mem _ hc', k', hk'⟩

theorem runEngine_ok {inp : EngineInput} {cs : List OrderChoice} {s e : Int}
    {orders : List GenOrder}
    (h : runEngine inp cs = .ok (s, e, orders)) :
    s = adjustedStart inp ∧ e = (windowOf inp).2 ∧
    orders = processOrders (adjustedStart inp) (windowOf inp).2 inp.catalog
      inp.customers (fun _ => 0) cs ∧
    (cs = [] ∨ 0 ≤ daysBetween s e) := by
  rcases cs with _ | ⟨c, rest⟩
  · unfold runEngine at h
    split_ifs at h
    all_goals simp_all [processOrders]
  · unfold runEngine at h
    split_ifs at h with h1 h2
    dsimp only at h
    by_cases h3 : generate_random_timestamp (adjustedStart inp)
        ((windowOf inp).2) c.ts = none
    · rw [if_pos h3] at h; simp at h
    · rw [if_neg h3] at h
      simp only [Except.ok.injEq, Prod.mk.injEq] at h
      obtain ⟨hs, he, ho⟩ := h
      refine ⟨hs.symm, he.symm, ho.symm, Or.inr ?_⟩
      unfold generate_random_timestamp at h3
      by_cases hdb : daysBetween (adjustedStart inp) ((windowOf inp).2) < 0
      · rw [if_pos hdb] at h3; simp at h3
      · rw [hs, he] at hdb; omega

theorem mkRecords_total_amount (endDt : Int) (oid : Int × Nat) (cid : Nat)
    (od : Int) (total : Nat) (comp ref : Bool) (c : OrderChoice) :
    ∀ r ∈ mkRecords endDt oid cid od total comp ref c,
      r.total_amount = total := by
  cases comp <;> cases ref <;> simp [mkRecords]

theorem mkRecords_statuses (endDt : Int) (oid : Int × Nat) (cid : Nat)
    (od : Int) (total : Nat) (comp ref : Bool) (c : OrderChoice) :
    (mkRecords endDt oid cid od total comp ref c).map (fun r => r.status) =
      if comp then
        (if ref then [Status.pending, Status.completed, Status.refunded]
          else [Status.pending, Status.completed])
      else [Status.pending, Status.cancelled] := by
  cases comp <;> cases ref <;> simp [mkRecords]

theorem mkRecords_pending_created (endDt : Int) (oid : Int × Nat) (cid : Nat)
    (od : Int) (total : Nat) (comp ref : Bool) (c : OrderChoice) :
    ∀ r ∈ mkRecords endDt oid cid od total comp ref c,
      r.status = Status.pending → r.created_at = od := by
  cases comp <;> cases ref <;> simp [mkRecords]

theorem mkRecords_counts (endDt : Int) (oid : Int × Nat) (cid : Nat)
    (od : Int) (total : Nat) (comp ref : Bool) (c : OrderChoice) :
    countStatus (mkRecords endDt oid cid od total comp ref c) .pending = 1 ∧
    countStatus (mkRecords endDt oid cid od total comp ref c) .completed +
      countStatus (mkRecords endDt oid cid od total comp ref c) .cancelled = 1 ∧
    (countStatus (mkRecords endDt oid cid od total comp ref c) .refunded ≠ 0 →
      countStatus (mkRecords endDt oid cid od total comp ref c) .completed = 1 ∧
      countStatus (mkRecords endDt oid cid od total comp ref c) .cancelled = 0) := by
  cases comp <;> cases ref <;> simp [mkRecords, countStatus]

theorem mkRecords_created_le_end (endDt : Int) (oid : Int × Nat) (cid : Nat)
    (od : Int) (total : Nat) (comp ref : Bool) (c : OrderChoice) :
    ∀ r ∈ mkRecords endDt oid cid od total comp ref c,
      r.status ≠ Status.pending → r.created_at ≤ endDt := by
  cases comp <;> cases ref <;> simp [mkRecords] <;> split_ifs <;> omega

theorem mkRecords_chain (endDt : Int) (oid : Int × Nat) (cid : Nat) (od : Int)
    (total : Nat) (comp ref : Bool) (c : OrderChoice)
    (hterm : od + (c.termDays : Int) * 86400 ≤ endDt)
    (href : ref = true →
      od + ((c.termDays : Int) + (c.refDays : Int)) * 86400 ≤ endDt) :
    List.Chain' (· ≤ ·)
      ((mkRecords endDt oid cid od total comp ref c).map
        (fun r => r.created_at)) := by
  cases comp <;> cases ref <;>
    simp only [mkRecords, Bool.false_eq_true, if_false, if_true,
      List.map_cons, List.map_nil, List.chain'_cons, List.chain'_singleton,
      and_true] <;>
    [skip; skip; skip; (have h2 := href rfl)] <;> split_ifs <;> omega

/-! ### Claims -/

/-- C1: for every logical order produced by a run of the new-lifecycle
engine, all physical status records emitted for the order carry the same
`total_amount`, and that value equals the sum over the order's generated
items of quantity × unit price, or 0 if the order has no items. -/
theorem C1_total_amount_consistent (inp : EngineInput) (cs : List OrderChoice)
    (s e : Int) (orders : List GenOrder)
    (hrun : runEngine inp cs = .ok (s, e, orders)) :
    ∀ o ∈ orders,
      (∀ r ∈ o.records, r.total_amount = sumLineTotals o.items) ∧
      (o.items = [] → ∀ r ∈ o.records, r.total_amount = 0) := by
  obtain ⟨hs, he, ho, _⟩ := runEngine_ok hrun
  subst ho
  intro o hmem
  obtain ⟨c, hc, k', rfl⟩ := mem_processOrders hmem
  constructor
  · intro r hr
    rw [processOrder_records_eq] at hr
    rw [mkRecords_total_amount _ _ _ _ _ _ _ _ r hr, processOrder_total_eq]
  · intro hnil r hr
    rw [processOrder_records_eq] at hr
    rw [mkRecords_total_amount _ _ _ _ _ _ _ _ r hr, processOrder_total_eq,
      hnil]
    rfl

/-- Witness for C1: the concrete two-order run `wInp`/`wCs`. -/
theorem C1_witness :
    runEngine wInp wCs = .ok (wOut.1, wOut.2.1, wOut.2.2) ∧
    ∀ o ∈ wOut.2.2, ∀ r ∈ o.records, r.total_amount = sumLineTotals o.items :=
  ⟨by decide, fun o ho =>
    (C1_total_amount_consistent wInp wCs wOut.1 wOut.2.1 wOut.2.2
      (by decide) o ho).1⟩

/-- C2: every logical order produced by a run of the new-lifecycle
engine emits exactly one pending record timestamped at the order's
original order date, exactly one terminal record (completed or
cancelled, never both), and a refunded record only when the terminal
record is a completed one. -/
theorem C2_stage_records (inp : EngineInput) (cs : List OrderChoice)
    (s e : Int) (orders : List GenOrder)
    (hrun : runEngine inp cs = .ok (s, e, orders)) :
    ∀ o ∈ orders,
      countStatus o.records .pending = 1 ∧
      (∀ r ∈ o.records, r.status = Status.pending →
        r.created_at = o.order_date) ∧
      countStatus o.records .completed + countStatus o.records .cancelled = 1 ∧
      (countStatus o.records .refunded ≠ 0 →
        countStatus o.records .completed = 1 ∧
        countStatus o.records .cancelled = 0) := by
  obtain ⟨hs, he, ho, _⟩ := runEngine_ok hrun
  subst ho
  intro o hmem
  obtain ⟨c, hc, k', rfl⟩ := mem_processOrders hmem
  rw [processOrder_records_eq]
  obtain ⟨h1, h2, h3⟩ := mkRecords_counts (windowOf inp).2
    ((processOrder (adjustedStart inp) (windowOf inp).2 inp.catalog
      inp.customers k' c).1).oid
    ((processOrder (adjustedStart inp) (windowOf inp).2 inp.catalog
      inp.customers k' c).1).customer_id
    ((processOrder (adjustedStart inp) (windowOf inp).2 inp.catalog
      inp.customers k' c).1).order_date
    ((processOrder (adjustedStart inp) (windowOf inp).2 inp.catalog
      inp.customers k' c).1).total_amount
    ((processOrder (adjustedStart inp) (windowOf inp).2 inp.catalog
      inp.customers k' c).1).completed
    ((processOrder (adjustedStart inp) (windowOf inp).2 inp.catalog
      inp.customers k' c).1).refunded c
  exact ⟨h1, fun r hr => mkRecords_pending_created _ _ _ _ _ _ _ _ r hr,
    h2, h3⟩

/-- Witness for C2: the concrete two-order run `wInp`/`wCs`. -/
theorem C2_witness :
    runEngine wInp wCs = .ok (wOut.1, wOut.2.1, wOut.2.2) ∧
    ∀ o ∈ wOut.2.2, countStatus o.records .pending = 1 :=
  ⟨by decide, fun o ho =>
    (C2_stage_records wInp wCs wOut.1 wOut.2.1 wOut.2.2 (by decide) o ho).1⟩

/-- C3 counterexample: a legal run whose single order lands exactly on
the window end, so the cancelled record is clamped to 12 hours before
the end and precedes the pending record — the claimed stage
monotonicity fails. -/
theorem C3_counterexample :
    cex3C.Valid 0 86400 1 1 cex3Inp.catalog ∧
    (runEngine cex3Inp [cex3C]).toOption.map
      (fun r => r.2.2.map (fun o => o.records.map
        (fun rec => (rec.status, rec.created_at)))) =
      some [[(Status.pending, 86400), (Status.cancelled, 43200)]] ∧
    ¬ ((86400 : Int) ≤ 43200) := by
  refine ⟨by decide, by decide, by decide⟩

/-- C3 (amended): the emitted records of a logical order are
monotonically ordered in time by stage whenever the naturally computed
stage timestamps do not exceed the window end (so the end-minus-1-to-12
hours clamp never fires); a clamped stage timestamp may precede an
earlier stage's record. -/
theorem C3_amended_monotone (s e : Int) (catalog : List Product)
    (customers : List Nat) (k : Int → Nat) (c : OrderChoice)
    (hterm : tsOf s c.ts + (c.termDays : Int) * 86400 ≤ e)
    (href : c.refundSel = true →
      tsOf s c.ts + ((c.termDays : Int) + (c.refDays : Int)) * 86400 ≤ e) :
    List.Chain' (· ≤ ·)
      (((processOrder s e catalog customers k c).1).records.map
        (fun r => r.created_at)) := by
  rw [processOrder_records_eq]
  apply mkRecords_chain
  · rw [processOrder_order_date_eq]; exact hterm
  · intro hrefTrue
    rw [processOrder_order_date_eq]
    apply href
    rw [processOrder_refunded_eq] at hrefTrue
    exact (Bool.and_eq_true_iff.mp hrefTrue).2

/-- Witness for C3 (amended): order `wC1` inside a three-day window,
where neither the completion nor the refund timestamp overshoots. -/
theorem C3_witness :
    (tsOf 0 wC1.ts + (wC1.termDays : Int) * 86400 ≤ 259200) ∧
    List.Chain' (· ≤ ·)
      (((processOrder 0 259200 wInp.catalog wInp.customers
        (fun _ => 0) wC1).1).records.map (fun r => r.created_at)) :=
  ⟨by decide,
    C3_amended_monotone 0 259200 wInp.catalog wInp.customers (fun _ => 0)
      wC1 (by decide) (fun _ => by decide)⟩

/-- C4: every generated order item is created no earlier than its
order's original order date and no earlier than the creation timestamp
of the product it references. -/
theorem C4_item_temporal (inp : EngineInput) (cs : List OrderChoice)
    (s e : Int) (orders : List GenOrder)
    (hrun : runEngine inp cs = .ok (s, e, orders))
    (hvalid : ∀ c ∈ cs,
      c.Valid s e inp.maxItems inp.customers.length inp.catalog) :
    ∀ o ∈ orders, ∀ i ∈ o.items,
      o.order_date ≤ i.created_at ∧ i.product.created_at ≤ i.created_at := by
  obtain ⟨hs, he, ho, _⟩ := runEngine_ok hrun
  subst ho
  intro o hmem i hi
  obtain ⟨c, hc, k', rfl⟩ := mem_processOrders hmem
  have hval := hvalid c hc
  rw [hs, he] at hval
  rw [processOrder_items_eq] at hi
  split at hi
  case isFalse => simp at hi
  case isTrue hHas =>
    obtain ⟨ic, hic, rfl⟩ := List.mem_map.mp hi
    obtain ⟨-, -, -, -, -, hitems, -⟩ := hval
    obtain ⟨hidx, -, -, -, hmin, -, -⟩ := hitems ic hic
    have hpmem : ((eligibleProducts inp.catalog
        (tsOf (adjustedStart inp) c.ts)).getD ic.prodIdx default) ∈
        eligibleProducts inp.catalog (tsOf (adjustedStart inp) c.ts) := by
      rw [List.getD_eq_getElem _ _ hidx]
      exact List.getElem_mem hidx
    have hple : ((eligibleProducts inp.catalog
        (tsOf (adjustedStart inp) c.ts)).getD ic.prodIdx default).created_at ≤
        tsOf (adjustedStart inp) c.ts := by
      unfold eligibleProducts at hpmem
      have := (List.mem_filter.mp hpmem).2
      simpa using this
    rw [processOrder_order_date_eq]
    simp only [genItem]
    constructor <;> omega

/-- Witness for C4: the concrete two-order run `wInp`/`wCs`. -/
theorem C4_witness :
    (∀ c ∈ wCs,
      c.Valid wOut.1 wOut.2.1 wInp.maxItems wInp.customers.length
        wInp.catalog) ∧
    ∀ o ∈ wOut.2.2, ∀ i ∈ o.items,
      o.order_date ≤ i.created_at ∧ i.product.created_at ≤ i.created_at :=
  ⟨by decide,
    C4_item_temporal wInp wCs wOut.1 wOut.2.1 wOut.2.2 (by decide)
      (by decide)⟩

/-- C5: zero-item orders (unselected, or selected with no eligible
product) are always emitted cancelled, never completed or refunded;
completed orders all have items; and when the stage-3 sample size is
`⌊(orders with items) · rate⌋` for the drawn rate in [0.90, 1.00], the
completed count lies between `⌊0.9 · (orders with items)⌋` and the
with-items count, the remainder being cancelled. -/
theorem C5_status_policy (inp : EngineInput) (cs : List OrderChoice)
    (s e : Int) (orders : List GenOrder) (rate : ℚ)
    (hrun : runEngine inp cs = .ok (s, e, orders))
    (hvalid : ∀ c ∈ cs,
      c.Valid s e inp.maxItems inp.customers.length inp.catalog)
    (hr1 : 9/10 ≤ rate) (_hr2 : rate ≤ 1)
    (hcount : countCompleted orders =
      Int.toNat ⌊(countWithItems orders : ℚ) * rate⌋) :
    (∀ o ∈ orders, o.items = [] →
      o.completed = false ∧ o.refunded = false ∧
      o.records.map (fun r => r.status) =
        [Status.pending, Status.cancelled]) ∧
    (∀ o ∈ orders, o.completed = false →
      o.records.map (fun r => r.status) =
        [Status.pending, Status.cancelled]) ∧
    (∀ o ∈ orders, o.completed = true → o.hasItems = true) ∧
    Int.toNat ⌊(countWithItems orders : ℚ) * (9/10)⌋ ≤
      countCompleted orders ∧
    countCompleted orders ≤ countWithItems orders := by
  obtain ⟨hs, he, ho, -⟩ := runEngine_ok hrun
  have hcompitems : ∀ o ∈ orders, o.completed = true → o.hasItems = true := by
    rw [ho]
    intro o hmem hcomp
    obtain ⟨c, hc, k', rfl⟩ := mem_processOrders hmem
    rw [processOrder_completed_eq] at hcomp
    exact (Bool.and_eq_true_iff.mp hcomp).1
  have hnostatus : ∀ o ∈ orders, o.completed = false →
      o.records.map (fun r => r.status) =
        [Status.pending, Status.cancelled] := by
    rw [ho]
    intro o hmem hcomp
    obtain ⟨c, hc, k', rfl⟩ := mem_processOrders hmem
    rw [processOrder_records_eq, mkRecords_statuses, hcomp]
    simp
  refine ⟨?_, hnostatus, hcompitems, ?_, ?_⟩
  · intro o hmem hitems
    have hHasFalse : o.hasItems = false := by
      by_contra hne
      have hHas : o.hasItems = true := by
        cases hx : o.hasItems
        · exact absurd hx hne
        · rfl
      rw [ho] at hmem
      obtain ⟨c, hc, k', rfl⟩ := mem_processOrders hmem
      have hval := hvalid c hc
      rw [hs, he] at hval
      obtain ⟨-, -, hn1, -, hlen, -⟩ := hval
      rw [processOrder_items_eq, if_pos hHas] at hitems
      rw [List.map_eq_nil_iff] at hitems
      rw [hitems] at hlen
      simp at hlen
      omega
    have hcompFalse : o.completed = false := by
      rw [ho] at hmem
      obtain ⟨c, hc, k', rfl⟩ := mem_processOrders hmem
      rw [processOrder_completed_eq, processOrder_hasItems_eq]
      rw [processOrder_hasItems_eq] at hHasFalse
      rw [hHasFalse]
      rfl
    have hrefFalse : o.refunded = false := by
      rw [ho] at hmem
      obtain ⟨c, hc, k', rfl⟩ := mem_processOrders hmem
      rw [processOrder_refunded_eq, hcompFalse]
      rfl
    exact ⟨hcompFalse, hrefFalse, hnostatus o hmem hcompFalse⟩
  · have hn : (0 : ℚ) ≤ (countWithItems orders : ℚ) := Nat.cast_nonneg _
    have hmul : (countWithItems orders : ℚ) * (9/10) ≤
        (countWithItems orders : ℚ) * rate :=
      mul_le_mul_of_nonneg_left hr1 hn
    rw [hcount]
    exact Int.toNat_le_toNat (Int.floor_le_floor hmul)
  · unfold countCompleted countWithItems
    rw [← List.countP_eq_length_filter, ← List.countP_eq_length_filter]
    exact List.countP_mono_left hcompitems

/-- Witness for C5: the concrete two-order run `wInp`/`wCs` with rate 1
(one item-bearing order, completed). -/
theorem C5_witness :
    (countCompleted wOut.2.2 =
      Int.toNat ⌊(countWithItems wOut.2.2 : ℚ) * 1⌋) ∧
    countCompleted wOut.2.2 ≤ countWithItems wOut.2.2 :=
  ⟨by rw [mul_one, Int.floor_natCast, Int.toNat_natCast]; decide,
    (C5_status_policy wInp wCs wOut.1 wOut.2.1 wOut.2.2 1
      (by decide) (by decide) (by norm_num) (by norm_num)
      (by rw [mul_one, Int.floor_natCast, Int.toNat_natCast]; decide)).2.2.2.2⟩

theorem daysBetween_mul_le (s e : Int) :
    daysBetween s e * 86400 ≤ e - s := by
  unfold daysBetween
  rw [Int.fdiv_eq_ediv _ (by norm_num)]
  exact Int.ediv_mul_le _ (by norm_num)

theorem daysBetween_neg (s e : Int) (h : e - s < 0) : daysBetween s e < 0 := by
  unfold daysBetween
  rw [Int.fdiv_eq_ediv _ (by norm_num)]
  exact Int.ediv_neg' h (by norm_num)

theorem windowOf_le (inp : EngineInput) : (windowOf inp).1 ≤ (windowOf inp).2 := by
  unfold windowOf standalone_calculate_date_range
  cases inp.startDate <;> cases inp.tableMax <;> simp

/-- C6 counterexample: a legal run whose single order lands on the
window end; its item is created one minute later, past the window end —
item timestamps are not clamped in the new lifecycle, refuting the
claim that every generated timestamp stays within the window. -/
theorem C6_counterexample :
    cex6C.Valid 0 86400 1 1 cex6Inp.catalog ∧
    (runEngine cex6Inp [cex6C]).toOption.map
      (fun r => r.2.2.map (fun o => o.items.map (fun i => i.created_at))) =
      some [[86460]] ∧
    (runEngine cex6Inp [cex6C]).toOption.map (fun r => r.2.1) = some 86400 ∧
    ¬ ((86460 : Int) ≤ 86400) := by
  refine ⟨by decide, by decide, by decide, by decide⟩

/-- C6 (amended): terminal and refunded record timestamps never exceed
the window end (they are clamped); the pending record's timestamp is
within `[start, end + 86399]` and an item's timestamp within
`[start, end + 86399 + 3659]` — both may exceed the end, because the
order-date draw can overshoot by up to a day minus a second and item
timestamps are not clamped at all; the seconds-based sampler used for
customer and product rows always stays within its window. -/
theorem C6_amended_window (inp : EngineInput) (cs : List OrderChoice)
    (s e : Int) (orders : List GenOrder)
    (hrun : runEngine inp cs = .ok (s, e, orders))
    (hvalid : ∀ c ∈ cs,
      c.Valid s e inp.maxItems inp.customers.length inp.catalog) :
    (∀ o ∈ orders, ∀ r ∈ o.records, r.status ≠ Status.pending →
      r.created_at ≤ e) ∧
    (∀ o ∈ orders, s ≤ o.order_date ∧ o.order_date ≤ e + 86399) ∧
    (∀ o ∈ orders, ∀ i ∈ o.items,
      o.order_date ≤ i.created_at ∧ i.created_at ≤ e + 86399 + 3659) ∧
    (∀ (s' e' : Int) (secs : Nat) (t : Int), s' ≤ e' →
      (secs : Int) ≤ e' - s' → random_timestamp s' e' secs = some t →
      s' ≤ t ∧ t ≤ e') := by
  obtain ⟨hs, he, ho, hdb⟩ := runEngine_ok hrun
  have hcs : orders ≠ [] → 0 ≤ daysBetween s e := by
    intro hne
    rcases hdb with hnil | hpos
    · rw [ho, hnil] at hne; simp [processOrders] at hne
    · exact hpos
  have hdate : ∀ o ∈ orders, s ≤ o.order_date ∧ o.order_date ≤ e + 86399 := by
    intro o hmem
    have hdb0 : 0 ≤ daysBetween s e := hcs (List.ne_nil_of_mem hmem)
    have hmul := daysBetween_mul_le s e
    rw [ho] at hmem
    obtain ⟨c, hc, k', rfl⟩ := mem_processOrders hmem
    have hval := hvalid c hc
    rw [hs, he] at hval
    obtain ⟨-, ⟨htd, hth, htm, hts⟩, -⟩ := hval
    rw [processOrder_order_date_eq]
    rw [hs, he] at hmul hdb0 ⊢
    unfold tsOf
    have htd86 : (c.ts.days : Int) * 86400 ≤
        daysBetween (adjustedStart inp) (windowOf inp).2 * 86400 :=
      mul_le_mul_of_nonneg_right htd (by norm_num)
    omega
  refine ⟨?_, hdate, ?_, ?_⟩
  · intro o hmem r hr hst
    rw [ho] at hmem
    obtain ⟨c, hc, k', rfl⟩ := mem_processOrders hmem
    rw [processOrder_records_eq] at hr
    rw [he]
    exact mkRecords_created_le_end _ _ _ _ _ _ _ _ r hr hst
  · intro o hmem i hi
    have hod := hdate o hmem
    rw [ho] at hmem
    obtain ⟨c, hc, k', rfl⟩ := mem_processOrders hmem
    have hval := hvalid c hc
    rw [hs, he] at hval
    obtain ⟨-, -, -, -, -, hitems, -⟩ := hval
    rw [processOrder_items_eq] at hi
    split at hi
    case isFalse => simp at hi
    case isTrue hHas =>
      obtain ⟨ic, hic, rfl⟩ := List.mem_map.mp hi
      obtain ⟨-, -, -, -, hmin1, hmin60, hsec⟩ := hitems ic hic
      rw [processOrder_order_date_eq] at hod ⊢
      simp only [genItem]
      omega
  · intro s' e' secs t hle hsecs hts
    unfold random_timestamp at hts
    rw [if_neg (by omega)] at hts
    simp only [Option.some.injEq] at hts
    omega

/-- Witness for C6 (amended): the concrete two-order run `wInp`/`wCs`. -/
theorem C6_witness :
    runEngine wInp wCs = .ok (wOut.1, wOut.2.1, wOut.2.2) ∧
    ∀ o ∈ wOut.2.2, ∀ r ∈ o.records, r.status ≠ Status.pending →
      r.created_at ≤ wOut.2.1 :=
  ⟨by decide, (C6_amended_window wInp wCs wOut.1 wOut.2.1 wOut.2.2
    (by decide) (by decide)).1⟩

/-- C7 counterexample: the date-range calculation the generation run
actually uses, `standalone_calculate_date_range`, returns the table
maximum itself (no positive offset) and an end far past the wall clock
(no clamping, no minimal-window substitution), and disagrees with the
unused method variant `calculate_date_range` that the claim describes:
here the table maximum is 1000 and the wall clock 2000. -/
theorem C7_counterexample :
    (standalone_calculate_date_range (some 1000) 2000 30 none).1 = 1000 ∧
    ¬ (1000 < (standalone_calculate_date_range (some 1000) 2000 30 none).1) ∧
    (standalone_calculate_date_range (some 1000) 2000 30 none).2 = 2593000 ∧
    ¬ ((standalone_calculate_date_range (some 1000) 2000 30 none).2 ≤ 2000) ∧
    standalone_calculate_date_range (some 1000) 2000 30 none ≠
      calculate_date_range (some 1000) 2000 30 none := by
  refine ⟨by decide, by decide, by decide, by decide, by decide⟩

/-- C7 (amended): the date-range calculation used by the generation run
returns start = the explicit start date when provided, else the table's
existing maximum `created_at` unchanged (no offset), else the current
wall-clock time when the table is empty; and end = start +
window_days·86400, with no clamping to the current time and no
minimal-window substitution. -/
theorem C7_amended_range (tableMax : Option Int) (now : Int) (days : Nat)
    (startDate : Option Int) :
    (standalone_calculate_date_range tableMax now days startDate).1 =
      startDate.getD (tableMax.getD now) ∧
    (standalone_calculate_date_range tableMax now days startDate).2 =
      (standalone_calculate_date_range tableMax now days startDate).1 +
        (days : Int) * 86400 := by
  cases startDate <;> cases tableMax <;>
    simp [standalone_calculate_date_range]

theorem processOrders_counter_lt (s e : Int) (catalog : List Product)
    (customers : List Nat) :
    ∀ (cs : List OrderChoice) (k : Int → Nat) (o : GenOrder),
      o ∈ processOrders s e catalog customers k cs →
      k o.oid.1 < o.oid.2 := by
  intro cs
  induction cs with
  | nil => intro k o h; simp [processOrders] at h
  | cons c rest ih =>
      intro k o h
      simp only [processOrders, List.mem_cons] at h
      rcases h with rfl | h2
      · rw [processOrder_oid_eq]; simp
      · have hk' := ih _ o h2
        rw [processOrder_counter_eq] at hk'
        simp only at hk'
        split_ifs at hk' with hx
        · rw [hx]; omega
        · exact hk'

theorem processOrders_oid_nodup (s e : Int) (catalog : List Product)
    (customers : List Nat) :
    ∀ (cs : List OrderChoice) (k : Int → Nat),
      ((processOrders s e catalog customers k cs).map
        (fun o => o.oid)).Nodup := by
  intro cs
  induction cs with
  | nil => intro k; simp [processOrders]
  | cons c rest ih =>
      intro k
      simp only [processOrders, List.map_cons, List.nodup_cons]
      refine ⟨?_, ih _⟩
      intro hmem
      obtain ⟨o, ho, hoid⟩ := List.mem_map.mp hmem
      have hlt := processOrders_counter_lt s e catalog customers rest _ o ho
      rw [processOrder_counter_eq] at hlt
      rw [processOrder_oid_eq] at hoid
      have h1 : o.oid.1 = tsOf s c.ts := by rw [hoid]
      have h2 : o.oid.2 = k (tsOf s c.ts) + 1 := by rw [hoid]
      simp only [h1, if_pos] at hlt
      omega

/-- C8 counterexample: a first run against an empty store produces a
single order dated 86400 with logical id (86400, 1) and maximum stored
timestamp 86400; a second run with no explicit start date then gets
window start exactly 86400 — not strictly after the stored maximum —
and a legal all-zero draw reproduces order date 86400 and the very same
logical id (86400, 1): a cross-run identifier collision. -/
theorem C8_counterexample :
    c8aC.Valid 0 86400 1 1 c8aInp.catalog ∧
    c8bC.Valid 86400 172800 1 1 c8bInp.catalog ∧
    c8bInp.startDate = none ∧
    c8bInp.tableMax = some (maxCreatedOf c8aOut.2.2) ∧
    c8bOut.1 = maxCreatedOf c8aOut.2.2 ∧
    ¬ (maxCreatedOf c8aOut.2.2 < c8bOut.1) ∧
    c8aOut.2.2.map (fun o => o.oid) = [((86400 : Int), 1)] ∧
    c8bOut.2.2.map (fun o => o.oid) = [((86400 : Int), 1)] ∧
    c8aOut.2.2.map (fun o => o.order_date) = [(86400 : Int)] ∧
    c8bOut.2.2.map (fun o => o.order_date) = [(86400 : Int)] := by
  refine ⟨by decide, by decide, by decide, by decide, by decide, by decide,
    by decide, by decide, by decide, by decide⟩

/-- C8 (amended): with no explicit start date a run's window start is
greater than or equal to — but not strictly after — the orders table's
stored maximum timestamp, and the logical order identifiers generated
within a single run are pairwise distinct; identifiers and timestamps
can collide across runs. -/
theorem C8_amended_monotonicity (inp : EngineInput) (cs : List OrderChoice)
    (s e : Int) (orders : List GenOrder)
    (hrun : runEngine inp cs = .ok (s, e, orders)) :
    (∀ m : Int, inp.startDate = none → inp.tableMax = some m → m ≤ s) ∧
    (orders.map (fun o => o.oid)).Nodup := by
  obtain ⟨hs, he, ho, -⟩ := runEngine_ok hrun
  constructor
  · intro m h1 h2
    rw [hs]
    unfold adjustedStart windowOf standalone_calculate_date_range
    rw [h1, h2]
    simp only [Option.getD_some]
    split_ifs with h
    · omega
    · exact le_refl m
  · rw [ho]
    exact processOrders_oid_nodup _ _ _ _ cs _

/-- Witness for C8 (amended): the concrete two-order run `wInp`/`wCs`. -/
theorem C8_witness :
    runEngine wInp wCs = .ok (wOut.1, wOut.2.1, wOut.2.2) ∧
    (wOut.2.2.map (fun o => o.oid)).Nodup :=
  ⟨by decide,
    (C8_amended_monotonicity wInp wCs wOut.1 wOut.2.1 wOut.2.2
      (by decide)).2⟩

theorem emailLoop_fresh (existing : List Nat) (stream : Nat → Nat) :
    ∀ (fuel tries email : Nat),
      (email ∉ existing ∨
        ∃ j, tries < j ∧ j ≤ tries + fuel ∧ stream j ∉ existing) →
      emailLoop existing stream fuel tries email ∉ existing := by
  intro fuel
  induction fuel with
  | zero =>
      intro tries email h
      rcases h with h | ⟨j, hj1, hj2, -⟩
      · simpa [emailLoop] using h
      · omega
  | succ f ih =>
      intro tries email h
      by_cases hmem : email ∈ existing
      · rw [emailLoop, if_pos hmem]
        apply ih
        rcases h with h | ⟨j, hj1, hj2, hj3⟩
        · exact absurd hmem h
        · by_cases hj : j = tries + 1
          · left; rw [← hj]; exact hj3
          · right; exact ⟨j, by omega, by omega, hj3⟩
      · rw [emailLoop, if_neg hmem]
        exact hmem

theorem pickEmail_fresh (existing : List Nat) (stream : Nat → Nat)
    (h : ∃ t ∈ List.range 51, stream t ∉ existing) :
    pickEmail existing stream ∉ existing := by
  obtain ⟨t, ht, hf⟩ := h
  have ht51 : t < 51 := List.mem_range.mp ht
  rw [pickEmail]
  apply emailLoop_fresh
  rcases Nat.eq_zero_or_pos t with rfl | hpos
  · left; exact hf
  · right; exact ⟨t, hpos, by omega, hf⟩

/-- C9 counterexample: the standalone `populate_customers` retry loop
has no synthesized-email fallback: with persisted email 7 and a faker
that always returns 7, both generated customers receive email 7 —
colliding with the persisted email and with each other. -/
theorem C9_counterexample :
    populate_customers_emails [7] [fun _ => 7, fun _ => 7] = [7, 7] ∧
    ¬ (([7, 7] : List Nat).Nodup) ∧ (7 : Nat) ∈ [7] := by
  refine ⟨by decide, by decide, by decide⟩

/-- C9 (amended): candidate emails are retried up to 50 times against
the combined existing-plus-batch email set; there is no guaranteed
fallback, but whenever some candidate within each customer's budget
avoids the combined set, the emitted emails are pairwise distinct and
distinct from every previously persisted email. -/
theorem C9_amended_email_unique (existing : List Nat)
    (streams : List (Nat → Nat))
    (hok : emailStreamsOk existing streams = true) :
    (populate_customers_emails existing streams).Nodup ∧
    ∀ em ∈ populate_customers_emails existing streams, em ∉ existing := by
  induction streams generalizing existing with
  | nil => simp [populate_customers_emails]
  | cons st rest ih =>
      rw [emailStreamsOk] at hok
      obtain ⟨h1, h2⟩ := Bool.and_eq_true_iff.mp hok
      have hfresh : pickEmail existing st ∉ existing := by
        apply pickEmail_fresh
        simpa using h1
      obtain ⟨ihn, ihm⟩ := ih (pickEmail existing st :: existing) h2
      rw [populate_customers_emails]
      refine ⟨List.nodup_cons.mpr ⟨?_, ihn⟩, ?_⟩
      · intro hmem
        exact ihm _ hmem (List.mem_cons_self _ _)
      · intro em hm
        rcases List.mem_cons.mp hm with rfl | hm'
        · exact hfresh
        · intro hEm
          exact ihm em hm' (List.mem_cons_of_mem _ hEm)

/-- Witness for C9 (amended): persisted email 1, two faker streams
constantly returning 2 and 3. -/
theorem C9_witness :
    emailStreamsOk [1] [fun _ => 2, fun _ => 3] = true ∧
    (populate_customers_emails [1] [fun _ => 2, fun _ => 3]).Nodup :=
  ⟨by decide,
    (C9_amended_email_unique [1] [fun _ => 2, fun _ => 3] (by decide)).1⟩

/-- C10: when the orders window's computed end precedes the earliest
product's creation timestamp, the engine pushes the window start past
that product timestamp without re-validating start ≤ end, and the first
per-order timestamp draw calls `random.randint` with a negative upper
bound, raising `ValueError` mid-stage instead of a reported
precondition abort. -/
theorem C10_negative_window_crash (inp : EngineInput) (cs : List OrderChoice)
    (hcs : cs ≠ []) (hcust : inp.customers ≠ []) (hcat : inp.catalog ≠ [])
    (hend : (windowOf inp).2 < minCreated inp.catalog) :
    runEngine inp cs = .error .valueError := by
  have hadj : adjustedStart inp = minCreated inp.catalog + 60 := by
    unfold adjustedStart
    rw [if_pos (lt_of_le_of_lt (windowOf_le inp) hend)]
  have hgen : ∀ c : OrderChoice, generate_random_timestamp
      (adjustedStart inp) ((windowOf inp).2) c.ts = none := by
    intro c
    unfold generate_random_timestamp
    rw [if_pos]
    apply daysBetween_neg
    rw [hadj]
    omega
  rcases cs with _ | ⟨c, rest⟩
  · exact absurd rfl hcs
  · unfold runEngine
    rw [if_neg hcust, if_neg hcat]
    dsimp only
    rw [if_pos (hgen c)]

/-- Witness for C10: a window `[0, 0]` with the single product created
at time 200000. -/
theorem C10_witness :
    ([c10C] : List OrderChoice) ≠ [] ∧
    (windowOf c10Inp).2 < minCreated c10Inp.catalog ∧
    runEngine c10Inp [c10C] = .error .valueError :=
  ⟨by decide, by decide,
    C10_negative_window_crash c10Inp [c10C] (by decide) (by decide)
      (by decide) (by decide)⟩

end BengoData
